import Mathlib

/-!
# stm32plus : the F1 `Adc` base class (lib/include/adc/f1/Adc.h)

A shallow embedding of the non-template ADC base class.

* `uint8_t` values are natural numbers; every store into a `uint8_t` object is
  written with an explicit `% 256`.
* The two static arrays `_regularChannelRank[3]` and `_injectedChannelRank[3]`
  are shared by all instances; they are the record `AdcStatics`, threaded through
  every member function that touches them.
* A non-`const` member function returns the updated object next to its result;
  a `const` member function only returns what it does to the peripheral.
* A subscript outside a three-element array is undefined behaviour in the source;
  the embedding returns `none` there.
* The functions of the peripheral library (`ADC_Cmd`, `ADC_ResetCalibration`, ...)
  are called by `Adc.h` but not defined in it; the member functions take them as
  a parameter (`AdcLibrary`). Every call made through it is written to a log so that
  the order and number of commands can be stated.
-/

namespace stm32plus

/-! ## Types of the peripheral library used by Adc.h -/

/-- Flag status of the peripheral library; `RESET` is zero, `SET` is non-zero. -/
inductive FlagStatus where
  | RESET
  | SET
  deriving DecidableEq, Repr

/-- Functional state of the peripheral library. -/
inductive FunctionalState where
  | DISABLE
  | ENABLE
  deriving DecidableEq, Repr

/-- Modelled from the spec: the configuration payload `ADC_InitTypeDef` (trigger source,
channel count, alignment, etc.). Its declaration is in the peripheral library header, which
is not part of Adc.h. The two members that Adc.h assigns are named fields; the members it
never names are kept together in `otherMembers`. -/
structure ADC_InitTypeDef where
  ADC_ExternalTrigConv : Nat
  ADC_NbrOfChannel : Nat
  otherMembers : List Nat
  deriving DecidableEq, Repr

/-! ## The class and its static members -/

/-- The non-static data members of `class Adc`. `_peripheralAddress` is the `ADC_TypeDef *`
handle, `_master` is the `Adc *` of the master (`none` for `nullptr`), `_injectedChannelCount`
is a `uint8_t`. -/
structure Adc where
  _peripheralAddress : Nat
  _init : ADC_InitTypeDef
  _master : Option Nat
  _injectedChannelCount : Nat
  _calibrated : Bool
  deriving DecidableEq, Repr

/-- The static data members `_regularChannelRank[3]` and `_injectedChannelRank[3]`
(both `uint8_t[3]`), indexed by the array subscript 0..2. -/
structure AdcStatics where
  _regularChannelRank : Fin 3 → Nat
  _injectedChannelRank : Fin 3 → Nat

/-- Every element of both static arrays is a `uint8_t` value. -/
def AdcStatics.WF (st : AdcStatics) : Prop :=
  ∀ i : Fin 3, st._regularChannelRank i < 256 ∧ st._injectedChannelRank i < 256

/-- The subscript `adcNumber-1` into a three-element array: defined for `adcNumber` 1, 2, 3,
outside the array otherwise (that includes `adcNumber = 0`, where the subscript is -1). -/
def rankIndex (adcNumber : Nat) : Option (Fin 3) :=
  if h : 1 ≤ adcNumber ∧ adcNumber ≤ 3 then some ⟨adcNumber - 1, by omega⟩ else none

/-- Constructor `Adc::Adc(ADC_TypeDef *peripheralAddress,Adc *master)`.

`structInit` is what `ADC_StructInit(&_init)` writes into `_init` and
`ADC_ExternalTrigConv_None` is the library constant of that name; both come from the
peripheral library. `st` is the value of the static arrays before the constructor runs. -/
def Adc.ctor (peripheralAddress : Nat) (master : Option Nat) (structInit : ADC_InitTypeDef)
    (ADC_ExternalTrigConv_None : Nat) (st : AdcStatics) : Adc × AdcStatics :=
  let regular := Function.update (Function.update (Function.update st._regularChannelRank 2 1) 1 1) 0 1
  let injected := Function.update (Function.update (Function.update st._injectedChannelRank 2 1) 1 1) 0 1
  ({ _peripheralAddress := peripheralAddress
     _master := master
     _calibrated := false
     _injectedChannelCount := 0
     _init := { structInit with
                  ADC_NbrOfChannel := 0
                  ADC_ExternalTrigConv := ADC_ExternalTrigConv_None } },
   { _regularChannelRank := regular, _injectedChannelRank := injected })

/-- Member `uint8_t Adc::getAndIncrementRegularChannelRank(uint8_t adcNumber)`:
`return _regularChannelRank[adcNumber-1]++;`. -/
def Adc.getAndIncrementRegularChannelRank (self : Adc) (adcNumber : Nat) (st : AdcStatics) :
    Option (Nat × Adc × AdcStatics) :=
  match rankIndex adcNumber with
  | none => none
  | some i =>
    some (st._regularChannelRank i, self,
      { st with _regularChannelRank :=
          Function.update st._regularChannelRank i ((st._regularChannelRank i + 1) % 256) })

/-- Member `uint8_t Adc::getAndIncrementInjectedChannelRank(uint8_t adcNumber)`:
`return _injectedChannelRank[adcNumber-1]++;`. -/
def Adc.getAndIncrementInjectedChannelRank (self : Adc) (adcNumber : Nat) (st : AdcStatics) :
    Option (Nat × Adc × AdcStatics) :=
  match rankIndex adcNumber with
  | none => none
  | some i =>
    some (st._injectedChannelRank i, self,
      { st with _injectedChannelRank :=
          Function.update st._injectedChannelRank i ((st._injectedChannelRank i + 1) % 256) })

/-- Member `void Adc::incrementInjectedChannelCount(uint8_t amountToAdd)`:
`_injectedChannelCount+=amountToAdd;` on a `uint8_t` member. -/
def Adc.incrementInjectedChannelCount (self : Adc) (amountToAdd : Nat) : Adc :=
  { self with _injectedChannelCount := (self._injectedChannelCount + amountToAdd) % 256 }

/-! ## Sequences of rank claims made by client code -/

/-- The two channel groups that have a rank array. -/
inductive ChannelGroup where
  | regular
  | injected
  deriving DecidableEq, Repr

/-- One rank slot: a channel group and an array subscript. -/
abbrev Slot := ChannelGroup × Fin 3

/-- The value held in a slot. -/
def AdcStatics.slot (st : AdcStatics) (s : Slot) : Nat :=
  match s.1 with
  | ChannelGroup.regular => st._regularChannelRank s.2
  | ChannelGroup.injected => st._injectedChannelRank s.2

/-- The call that claims a rank from a slot: the group selects the member function and the
ADC number is the subscript plus one. -/
def Slot.call (s : Slot) : ChannelGroup × Nat := (s.1, s.2.val + 1)

/-- One rank claim: the member function for the group, called with the ADC number. -/
def Adc.claimRank (self : Adc) (c : ChannelGroup × Nat) (st : AdcStatics) :
    Option (Nat × Adc × AdcStatics) :=
  match c.1 with
  | ChannelGroup.regular => self.getAndIncrementRegularChannelRank c.2 st
  | ChannelGroup.injected => self.getAndIncrementInjectedChannelRank c.2 st

/-- A finite sequence of rank claims run in order with no construction in between; returns the
ranks handed out, in call order, and the final object and static arrays. -/
def runClaims : List (ChannelGroup × Nat) → Adc → AdcStatics → Option (List Nat × Adc × AdcStatics)
  | [], self, st => some ([], self, st)
  | c :: cs, self, st =>
    match self.claimRank c st with
    | none => none
    | some (r, self1, st1) =>
      match runClaims cs self1 st1 with
      | none => none
      | some (rs, self2, st2) => some (r :: rs, self2, st2)

/-- The ranks that a run handed out for one slot, in call order. -/
def ranksOf (s : Slot) (ops : List Slot) (rs : List Nat) : List Nat :=
  ((ops.zip rs).filter (fun p => decide (p.1 = s))).map Prod.snd

/-! ## The peripheral library as a parameter -/

/-- The functions and the flag constant of the peripheral library that Adc.h calls, over a
state `P` of the peripheral hardware. The first argument of each function is the
`ADC_TypeDef *` handle. A command maps the hardware state to the next one; a status or data
read returns the value read together with the hardware state after the read, so that the
hardware can make progress between two reads of a busy-wait loop. -/
structure AdcLibrary (P : Type) where
  ADC_FLAG_EOC : Nat
  ADC_Cmd : Nat → FunctionalState → P → P
  ADC_ResetCalibration : Nat → P → P
  ADC_GetResetCalibrationStatus : Nat → P → FlagStatus × P
  ADC_StartCalibration : Nat → P → P
  ADC_GetCalibrationStatus : Nat → P → FlagStatus × P
  ADC_SoftwareStartConvCmd : Nat → FunctionalState → P → P
  ADC_GetSoftwareStartConvStatus : Nat → P → FlagStatus × P
  ADC_GetFlagStatus : Nat → Nat → P → FlagStatus × P
  ADC_GetConversionValue : Nat → P → Nat × P

/-- One call into the peripheral library, with its arguments and, for a read, the value
that was returned. -/
inductive LibCall where
  | ADC_Cmd (addr : Nat) (state : FunctionalState)
  | ADC_ResetCalibration (addr : Nat)
  | ADC_GetResetCalibrationStatus (addr : Nat) (result : FlagStatus)
  | ADC_StartCalibration (addr : Nat)
  | ADC_GetCalibrationStatus (addr : Nat) (result : FlagStatus)
  | ADC_SoftwareStartConvCmd (addr : Nat) (state : FunctionalState)
  | ADC_GetSoftwareStartConvStatus (addr : Nat) (result : FlagStatus)
  | ADC_GetFlagStatus (addr : Nat) (flag : Nat) (result : FlagStatus)
  | ADC_GetConversionValue (addr : Nat) (result : Nat)
  deriving DecidableEq, Repr

/-- The hardware state together with the log of library calls made so far, oldest first. -/
structure World (P : Type) where
  periph : P
  calls : List LibCall

/-- A command call: the hardware moves on and the call is logged. -/
def World.command {P : Type} (w : World P) (f : P → P) (c : LibCall) : World P :=
  { periph := f w.periph, calls := w.calls ++ [c] }

/-- A read call: returns the value read; the hardware state after the read is kept and the
call is logged with the value it returned. -/
def World.read {P : Type} {α : Type} (w : World P) (f : P → α × P) (c : α → LibCall) :
    α × World P :=
  ((f w.periph).1, { periph := (f w.periph).2, calls := w.calls ++ [c (f w.periph).1] })

/-- The busy-wait `while(status(p));`: read the status, leave the loop when it is `RESET`
(zero), read again when it is `SET`. `fuel` bounds the number of reads; `none` means the
bound was reached with the status still `SET`. -/
def whileSet {P : Type} (poll : World P → FlagStatus × World P) : Nat → World P → Option (World P)
  | 0, _ => none
  | fuel + 1, w =>
    match poll w with
    | (FlagStatus.RESET, w1) => some w1
    | (FlagStatus.SET, w1) => whileSet poll fuel w1

/-- Member `void Adc::calibrate() const`. -/
def Adc.calibrate {P : Type} (lib : AdcLibrary P) (fuel : Nat) (self : Adc) (w : World P) :
    Option (World P) :=
  let a := self._peripheralAddress
  let w1 := w.command (lib.ADC_ResetCalibration a) (LibCall.ADC_ResetCalibration a)
  match whileSet (fun v => v.read (lib.ADC_GetResetCalibrationStatus a)
      (LibCall.ADC_GetResetCalibrationStatus a)) fuel w1 with
  | none => none
  | some w2 =>
    let w3 := w2.command (lib.ADC_StartCalibration a) (LibCall.ADC_StartCalibration a)
    whileSet (fun v => v.read (lib.ADC_GetCalibrationStatus a)
      (LibCall.ADC_GetCalibrationStatus a)) fuel w3

/-- Member `void Adc::enablePeripheral() const`. -/
def Adc.enablePeripheral {P : Type} (lib : AdcLibrary P) (fuel : Nat) (self : Adc) (w : World P) :
    Option (World P) :=
  let a := self._peripheralAddress
  let w1 := w.command (lib.ADC_Cmd a FunctionalState.ENABLE) (LibCall.ADC_Cmd a FunctionalState.ENABLE)
  if !self._calibrated then
    self.calibrate lib fuel w1
  else
    some w1

/-- Member `void Adc::disablePeripheral() const`. -/
def Adc.disablePeripheral {P : Type} (lib : AdcLibrary P) (self : Adc) (w : World P) : World P :=
  let a := self._peripheralAddress
  w.command (lib.ADC_Cmd a FunctionalState.DISABLE) (LibCall.ADC_Cmd a FunctionalState.DISABLE)

/-- Member `void Adc::startRegularConversion() const`. -/
def Adc.startRegularConversion {P : Type} (lib : AdcLibrary P) (self : Adc) (w : World P) :
    World P :=
  let a := self._peripheralAddress
  w.command (lib.ADC_SoftwareStartConvCmd a FunctionalState.ENABLE)
    (LibCall.ADC_SoftwareStartConvCmd a FunctionalState.ENABLE)

/-- Member `bool Adc::hasRegularConversionStarted() const`:
`return ADC_GetSoftwareStartConvStatus(_peripheralAddress)==RESET;`. -/
def Adc.hasRegularConversionStarted {P : Type} (lib : AdcLibrary P) (self : Adc) (w : World P) :
    Bool × World P :=
  let a := self._peripheralAddress
  let r := w.read (lib.ADC_GetSoftwareStartConvStatus a) (LibCall.ADC_GetSoftwareStartConvStatus a)
  (decide (r.1 = FlagStatus.RESET), r.2)

/-- Member `bool Adc::hasRegularConversionFinished() const`:
`return ADC_GetFlagStatus(_peripheralAddress,ADC_FLAG_EOC)==SET;`. -/
def Adc.hasRegularConversionFinished {P : Type} (lib : AdcLibrary P) (self : Adc) (w : World P) :
    Bool × World P :=
  let a := self._peripheralAddress
  let r := w.read (lib.ADC_GetFlagStatus a lib.ADC_FLAG_EOC)
    (LibCall.ADC_GetFlagStatus a lib.ADC_FLAG_EOC)
  (decide (r.1 = FlagStatus.SET), r.2)

/-- Member `uint16_t Adc::getRegularConversionValue() const`. -/
def Adc.getRegularConversionValue {P : Type} (lib : AdcLibrary P) (self : Adc) (w : World P) :
    Nat × World P :=
  let a := self._peripheralAddress
  let r := w.read (lib.ADC_GetConversionValue a) (LibCall.ADC_GetConversionValue a)
  (r.1 % 65536, r.2)

/-! ## Busy-wait loops that end -/

/-- The status read by `poll` is `SET` on the next `k` reads and `RESET` on the read after
them: it clears after `k` polls. -/
def clearsAfter {P : Type} (poll : P → FlagStatus × P) : Nat → P → Bool
  | 0, p => decide ((poll p).1 = FlagStatus.RESET)
  | k + 1, p => decide ((poll p).1 = FlagStatus.SET) && clearsAfter poll k (poll p).2

/-- The hardware state after `n` reads by `poll`. -/
def afterPolls {P : Type} (poll : P → FlagStatus × P) : Nat → P → P
  | 0, p => p
  | n + 1, p => afterPolls poll n (poll p).2

/-! ## A mock peripheral -/

/-- Modelled from the spec: the register-level state of one mock ADC peripheral behind the
boundary of section 6 (enable/disable command, reset-calibration command and status,
start-calibration command and status, software-start command and status, end-of-conversion
flag, conversion-result register). `rstcalBusy` and `calBusy` count the status reads that
still report the operation as pending; `rstcalLatency` and `calLatency` are the values they
are loaded with by the reset-calibration and start-calibration commands. -/
structure MockAdc where
  enabled : Bool
  rstcalBusy : Nat
  calBusy : Nat
  rstcalLatency : Nat
  calLatency : Nat
  swstart : Bool
  eoc : Bool
  dr : Nat
  deriving DecidableEq, Repr

/-- The flag status that a mock register bit reads as. -/
def bitStatus (b : Bool) : FlagStatus := if b then FlagStatus.SET else FlagStatus.RESET

/-- Modelled from the spec: the peripheral library over a bank of mock peripherals, one
per handle. Commands act on the peripheral behind the handle. A calibration status reads
`SET` while the matching busy count is positive and each such read uses up one count (the
status clears after finitely many polls). The software-start status and the flag status are
plain reads of the `swstart` and `eoc` bits, with no effect on the peripheral; a flag other
than EOC reads `RESET`. The EOC flag constant is the bit 0x02 of the status register. -/
def mockLibrary : AdcLibrary (Nat → MockAdc) where
  ADC_FLAG_EOC := 2
  ADC_Cmd := fun a st m =>
    Function.update m a { m a with enabled := decide (st = FunctionalState.ENABLE) }
  ADC_ResetCalibration := fun a m =>
    Function.update m a { m a with rstcalBusy := (m a).rstcalLatency }
  ADC_GetResetCalibrationStatus := fun a m =>
    (bitStatus (decide (0 < (m a).rstcalBusy)),
      Function.update m a { m a with rstcalBusy := (m a).rstcalBusy - 1 })
  ADC_StartCalibration := fun a m =>
    Function.update m a { m a with calBusy := (m a).calLatency }
  ADC_GetCalibrationStatus := fun a m =>
    (bitStatus (decide (0 < (m a).calBusy)),
      Function.update m a { m a with calBusy := (m a).calBusy - 1 })
  ADC_SoftwareStartConvCmd := fun a st m =>
    Function.update m a { m a with swstart := decide (st = FunctionalState.ENABLE) }
  ADC_GetSoftwareStartConvStatus := fun a m => (bitStatus (m a).swstart, m)
  ADC_GetFlagStatus := fun a flag m => (bitStatus (decide (flag = 2) && (m a).eoc), m)
  ADC_GetConversionValue := fun a m => ((m a).dr, m)

/-- The hardware clears the software-start bit of the peripheral behind a handle (the
conversion begins). Not a library call: this is the environment acting on the mock. -/
def mockClearSwstart (a : Nat) (m : Nat → MockAdc) : Nat → MockAdc :=
  Function.update m a { m a with swstart := false }

/-- The hardware sets the end-of-conversion flag of the peripheral behind a handle. Not a
library call: this is the environment acting on the mock. -/
def mockSetEoc (a : Nat) (m : Nat → MockAdc) : Nat → MockAdc :=
  Function.update m a { m a with eoc := true }

/-- A mock peripheral at rest whose reset-calibration status clears after `k1` polls and
whose calibration status clears after `k2` polls. -/
def mockIdle (k1 k2 : Nat) : MockAdc :=
  { enabled := false, rstcalBusy := 0, calBusy := 0, rstcalLatency := k1, calLatency := k2,
    swstart := false, eoc := false, dr := 0 }

/-- A bank in which every handle has an idle mock peripheral behind it. -/
def mockBank (k1 k2 : Nat) : Nat → MockAdc := fun _ => mockIdle k1 k2

/-- The default initialisation payload used in the worked examples. -/
def exampleStructInit : ADC_InitTypeDef :=
  { ADC_ExternalTrigConv := 0, ADC_NbrOfChannel := 1, otherMembers := [0, 0, 0, 0] }

/-- Static arrays with arbitrary earlier contents, used in the worked examples. -/
def exampleStatics : AdcStatics :=
  { _regularChannelRank := fun _ => 7, _injectedChannelRank := fun _ => 9 }

/-- Static arrays in which the regular rank of ADC1 has reached 255 (the state left by 254
regular claims for ADC1 after a construction). -/
def staticsAt255 : AdcStatics :=
  { _regularChannelRank := fun i => if i = 0 then 255 else 1, _injectedChannelRank := fun _ => 1 }

/-- An instance for ADC1, constructed over the example payload with no master. -/
def exampleAdc : Adc := (Adc.ctor 1073816576 none exampleStructInit 917504 exampleStatics).1

/-- The scenario of two instances: A is constructed and claims two regular ranks for ADC1,
then B is constructed (with A as its master or not), then A claims one more regular rank for
ADC1. Returns the three ranks handed to A. -/
def resetHazardScenario (st : AdcStatics) (addrA addrB : Nat) (masterB : Option Nat)
    (structInit : ADC_InitTypeDef) (trigNone : Nat) : Option (Nat × Nat × Nat) :=
  let a0 := Adc.ctor addrA none structInit trigNone st
  match a0.1.getAndIncrementRegularChannelRank 1 a0.2 with
  | none => none
  | some (r1, a1, s1) =>
    match a1.getAndIncrementRegularChannelRank 1 s1 with
    | none => none
    | some (r2, a2, s2) =>
      let b0 := Adc.ctor addrB masterB structInit trigNone s2
      match a2.getAndIncrementRegularChannelRank 1 b0.2 with
      | none => none
      | some (r3, _, _) => some (r1, r2, r3)

/-- The static arrays left by a sequence of claims on the given slots, run in order. -/
def slotsAfter (ops : List Slot) (self : Adc) (st : AdcStatics) : Option AdcStatics :=
  (runClaims (ops.map Slot.call) self st).map (fun x => x.2.2)

/-- The rank returned by the last of `n` consecutive regular rank claims for one ADC number. -/
def nthRegularRank (adcNumber n : Nat) (self : Adc) (st : AdcStatics) : Option Nat :=
  match runClaims (List.replicate n (ChannelGroup.regular, adcNumber)) self st with
  | none => none
  | some (rs, _, _) => rs[n - 1]?

/-- The hardware state in which `enablePeripheral` starts to poll the reset-calibration
status: the enable command, then the reset-calibration command. -/
def resetIssued {P : Type} (lib : AdcLibrary P) (a : Nat) (p : P) : P :=
  lib.ADC_ResetCalibration a (lib.ADC_Cmd a FunctionalState.ENABLE p)

/-- The hardware state in which `enablePeripheral` starts to poll the calibration status, when
the reset-calibration status cleared after `k1` polls: the `k1 + 1` reads of that status, then
the start-calibration command. -/
def startIssued {P : Type} (lib : AdcLibrary P) (a : Nat) (k1 : Nat) (p : P) : P :=
  lib.ADC_StartCalibration a
    (afterPolls (lib.ADC_GetResetCalibrationStatus a) (k1 + 1) (resetIssued lib a p))

/-- The library calls of one enable with calibration, in order, when the reset-calibration
status clears after `k1` polls and the calibration status after `k2` polls. -/
def calibrationLog (a k1 k2 : Nat) : List LibCall :=
  [LibCall.ADC_Cmd a FunctionalState.ENABLE, LibCall.ADC_ResetCalibration a]
    ++ List.replicate k1 (LibCall.ADC_GetResetCalibrationStatus a FlagStatus.SET)
    ++ [LibCall.ADC_GetResetCalibrationStatus a FlagStatus.RESET, LibCall.ADC_StartCalibration a]
    ++ List.replicate k2 (LibCall.ADC_GetCalibrationStatus a FlagStatus.SET)
    ++ [LibCall.ADC_GetCalibrationStatus a FlagStatus.RESET]

/-- Two calls of `enablePeripheral` on the same instance, one after the other. -/
def enableTwice {P : Type} (lib : AdcLibrary P) (fuel : Nat) (self : Adc) (w : World P) :
    Option (World P) :=
  match self.enablePeripheral lib fuel w with
  | none => none
  | some w1 => self.enablePeripheral lib fuel w1

/-- The number of reset-calibration and of start-calibration commands in a log, for one
handle: the two command counters of a mock. -/
def calibrationCounters (a : Nat) (calls : List LibCall) : Nat × Nat :=
  (calls.count (LibCall.ADC_ResetCalibration a), calls.count (LibCall.ADC_StartCalibration a))

/-! ## Basic facts -/

theorem rankIndex_succ (i : Fin 3) : rankIndex (i.val + 1) = some i := by
  have h : 1 ≤ i.val + 1 ∧ i.val + 1 ≤ 3 := ⟨by omega, by omega⟩
  simp [rankIndex, h]

theorem regular_call_eq (self : Adc) (st : AdcStatics) (i : Fin 3) :
    self.getAndIncrementRegularChannelRank (i.val + 1) st =
      some (st._regularChannelRank i, self,
        { st with _regularChannelRank :=
            Function.update st._regularChannelRank i ((st._regularChannelRank i + 1) % 256) }) := by
  simp [Adc.getAndIncrementRegularChannelRank, rankIndex_succ]

theorem injected_call_eq (self : Adc) (st : AdcStatics) (i : Fin 3) :
    self.getAndIncrementInjectedChannelRank (i.val + 1) st =
      some (st._injectedChannelRank i, self,
        { st with _injectedChannelRank :=
            Function.update st._injectedChannelRank i ((st._injectedChannelRank i + 1) % 256) }) := by
  simp [Adc.getAndIncrementInjectedChannelRank, rankIndex_succ]

theorem ctor_regular (addr : Nat) (master : Option Nat) (si : ADC_InitTypeDef) (t : Nat)
    (st : AdcStatics) (i : Fin 3) : (Adc.ctor addr master si t st).2._regularChannelRank i = 1 := by
  fin_cases i <;> simp [Adc.ctor, Function.update]

theorem ctor_injected (addr : Nat) (master : Option Nat) (si : ADC_InitTypeDef) (t : Nat)
    (st : AdcStatics) (i : Fin 3) : (Adc.ctor addr master si t st).2._injectedChannelRank i = 1 := by
  fin_cases i <;> simp [Adc.ctor, Function.update]

/-! ## C1 : post-increment of a rank slot -/

/-- C1 (as amended): for every ADC number 1..3 (written `i + 1` for the subscript `i`) and every
rank state, getAndIncrementRegularChannelRank returns the current value of the regular slot,
leaves the object as it was and leaves the slot equal to the returned value plus one modulo 256;
that is the returned value plus one whenever the returned value is below 255. The same holds for
getAndIncrementInjectedChannelRank and the injected slot. -/
theorem getAndIncrement_postIncrement_uint8 (self : Adc) (st : AdcStatics) (i : Fin 3) :
    (∃ st1, self.getAndIncrementRegularChannelRank (i.val + 1) st
          = some (st._regularChannelRank i, self, st1)
        ∧ st1._regularChannelRank i = (st._regularChannelRank i + 1) % 256
        ∧ (st._regularChannelRank i < 255 →
            st1._regularChannelRank i = st._regularChannelRank i + 1))
    ∧ (∃ st1, self.getAndIncrementInjectedChannelRank (i.val + 1) st
          = some (st._injectedChannelRank i, self, st1)
        ∧ st1._injectedChannelRank i = (st._injectedChannelRank i + 1) % 256
        ∧ (st._injectedChannelRank i < 255 →
            st1._injectedChannelRank i = st._injectedChannelRank i + 1)) := by
  refine ⟨⟨_, regular_call_eq self st i, ?_, ?_⟩, ⟨_, injected_call_eq self st i, ?_, ?_⟩⟩
  · simp
  · intro h
    simp only [Function.update_same]
    exact Nat.mod_eq_of_lt (by omega)
  · simp
  · intro h
    simp only [Function.update_same]
    exact Nat.mod_eq_of_lt (by omega)

/-- C1 fails as stated: in a rank state of uint8_t values with the regular rank of ADC1 at 255,
the call for ADC1 returns 255 and leaves the slot at 0, which is not the returned value plus
one. -/
theorem getAndIncrement_wraps_at_255 :
    staticsAt255.WF
    ∧ (exampleAdc.getAndIncrementRegularChannelRank 1 staticsAt255).map
        (fun x => (x.1, x.2.2._regularChannelRank 0)) = some (255, 0)
    ∧ ¬ ∃ r self1 st1, exampleAdc.getAndIncrementRegularChannelRank 1 staticsAt255
          = some (r, self1, st1)
        ∧ r = staticsAt255._regularChannelRank 0 ∧ st1._regularChannelRank 0 = r + 1 := by
  have h := regular_call_eq exampleAdc staticsAt255 0
  simp only [Fin.val_zero, Nat.zero_add] at h
  refine ⟨?_, ?_, ?_⟩
  · intro i
    fin_cases i <;> simp [staticsAt255]
  · rw [h]; simp [staticsAt255]
  · rintro ⟨r, self1, st1, hcall, hr, hs⟩
    rw [h] at hcall
    simp only [Option.some.injEq, Prod.mk.injEq] at hcall
    obtain ⟨h1, _, h3⟩ := hcall
    subst h3
    simp [staticsAt255] at hr hs

/-! ## C3 : construction resets every rank slot -/

/-- C3: for every prior rank state, peripheral handle and master reference, constructing an Adc
leaves all three regular and all three injected rank slots equal to 1, whichever ADC is being
constructed; and in the two-instance scenario (A claims regular ranks 1 and 2 for ADC1, B is
constructed, A claims again) the third rank handed to A is 1, not 3. -/
theorem ctor_resets_all_rank_slots (st : AdcStatics) (addr addrB : Nat) (master : Option Nat)
    (si : ADC_InitTypeDef) (trigNone : Nat) :
    (∀ i : Fin 3, (Adc.ctor addr master si trigNone st).2._regularChannelRank i = 1
        ∧ (Adc.ctor addr master si trigNone st).2._injectedChannelRank i = 1)
    ∧ resetHazardScenario st addr addrB master si trigNone = some (1, 2, 1) := by
  refine ⟨fun i => ⟨ctor_regular _ _ _ _ _ i, ctor_injected _ _ _ _ _ i⟩, ?_⟩
  have h := fun (self : Adc) (s : AdcStatics) => regular_call_eq self s 0
  simp only [Fin.val_zero, Nat.zero_add] at h
  simp [resetHazardScenario, h, ctor_regular]

/-! ## C4 : frame of a rank claim -/

/-- C4: for every rank state and every ADC number a in 1..3 (written `i + 1`), a regular rank
claim for a leaves the regular slot of every other ADC number and all three injected slots
unchanged, an injected rank claim for a leaves the injected slot of every other ADC number and
all three regular slots unchanged, and neither changes the injected channel count or the
calibrated flag of the object. -/
theorem rank_claim_frame (self : Adc) (st : AdcStatics) (i : Fin 3) :
    (∃ r self1 st1, self.getAndIncrementRegularChannelRank (i.val + 1) st = some (r, self1, st1)
        ∧ (∀ j : Fin 3, j ≠ i → st1._regularChannelRank j = st._regularChannelRank j)
        ∧ (∀ j : Fin 3, st1._injectedChannelRank j = st._injectedChannelRank j)
        ∧ self1._injectedChannelCount = self._injectedChannelCount
        ∧ self1._calibrated = self._calibrated)
    ∧ (∃ r self1 st1, self.getAndIncrementInjectedChannelRank (i.val + 1) st = some (r, self1, st1)
        ∧ (∀ j : Fin 3, j ≠ i → st1._injectedChannelRank j = st._injectedChannelRank j)
        ∧ (∀ j : Fin 3, st1._regularChannelRank j = st._regularChannelRank j)
        ∧ self1._injectedChannelCount = self._injectedChannelCount
        ∧ self1._calibrated = self._calibrated) := by
  refine ⟨⟨_, _, _, regular_call_eq self st i, ?_, fun _ => rfl, rfl, rfl⟩,
    ⟨_, _, _, injected_call_eq self st i, ?_, fun _ => rfl, rfl, rfl⟩⟩
  · intro j hj
    simp [Function.update_noteq hj]
  · intro j hj
    simp [Function.update_noteq hj]

/-! ## C9 : the injected channel count -/

/-- C9 (as amended): incrementInjectedChannelCount(n) leaves the accumulator at its previous
value plus n modulo 256 (a uint8_t), which is the previous value plus n whenever that sum is at
most 255, and changes nothing else in the object (handle, configuration payload, master,
calibrated flag); it has no access to the rank slots. On a freshly constructed instance,
adding 3 and then 2 leaves the accumulator at 5. -/
theorem incrementInjectedChannelCount_uint8 (self : Adc) (n : Nat) (st : AdcStatics)
    (addr : Nat) (master : Option Nat) (si : ADC_InitTypeDef) (trigNone : Nat) :
    (self.incrementInjectedChannelCount n)._injectedChannelCount
        = (self._injectedChannelCount + n) % 256
    ∧ (self._injectedChannelCount + n ≤ 255 →
        (self.incrementInjectedChannelCount n)._injectedChannelCount
          = self._injectedChannelCount + n)
    ∧ (self.incrementInjectedChannelCount n)._peripheralAddress = self._peripheralAddress
    ∧ (self.incrementInjectedChannelCount n)._init = self._init
    ∧ (self.incrementInjectedChannelCount n)._master = self._master
    ∧ (self.incrementInjectedChannelCount n)._calibrated = self._calibrated
    ∧ (Adc.ctor addr master si trigNone st).1._injectedChannelCount = 0
    ∧ (((Adc.ctor addr master si trigNone st).1.incrementInjectedChannelCount 3
          ).incrementInjectedChannelCount 2)._injectedChannelCount = 5 := by
  refine ⟨rfl, ?_, rfl, rfl, rfl, rfl, rfl, ?_⟩
  · intro h
    exact Nat.mod_eq_of_lt (by omega)
  · simp [Adc.incrementInjectedChannelCount, Adc.ctor]

/-- C9 fails as stated: on a freshly constructed instance, adding 200 and then 100 leaves the
accumulator at 44, not at 200 + 100. -/
theorem incrementInjectedChannelCount_wraps :
    (exampleAdc.incrementInjectedChannelCount 200)._injectedChannelCount = 200
    ∧ ((exampleAdc.incrementInjectedChannelCount 200).incrementInjectedChannelCount 100
        )._injectedChannelCount = 44
    ∧ ((exampleAdc.incrementInjectedChannelCount 200).incrementInjectedChannelCount 100
        )._injectedChannelCount
        ≠ (exampleAdc.incrementInjectedChannelCount 200)._injectedChannelCount + 100 := by
  decide

/-! ## Runs of rank claims -/

theorem claimRank_call (self : Adc) (st : AdcStatics) (s : Slot) :
    ∃ st1, self.claimRank s.call st = some (st.slot s, self, st1)
      ∧ st1.slot s = (st.slot s + 1) % 256
      ∧ ∀ t : Slot, t ≠ s → st1.slot t = st.slot t := by
  obtain ⟨g, i⟩ := s
  cases g
  · refine ⟨_, regular_call_eq self st i, by simp [AdcStatics.slot], ?_⟩
    rintro ⟨g1, j⟩ ht
    cases g1
    · have hj : j ≠ i := fun h => ht (by rw [h])
      simp [AdcStatics.slot, Function.update_noteq hj]
    · simp [AdcStatics.slot]
  · refine ⟨_, injected_call_eq self st i, by simp [AdcStatics.slot], ?_⟩
    rintro ⟨g1, j⟩ ht
    cases g1
    · simp [AdcStatics.slot]
    · have hj : j ≠ i := fun h => ht (by rw [h])
      simp [AdcStatics.slot, Function.update_noteq hj]

theorem runClaims_cons (c : ChannelGroup × Nat) (cs : List (ChannelGroup × Nat)) (self : Adc)
    (st st1 st2 : AdcStatics) (r : Nat) (rs : List Nat)
    (h1 : self.claimRank c st = some (r, self, st1))
    (h2 : runClaims cs self st1 = some (rs, self, st2)) :
    runClaims (c :: cs) self st = some (r :: rs, self, st2) := by
  simp [runClaims, h1, h2]

/-- Consecutive claims on one slot, wrap-around included: the k-th returns the starting value
plus k - 1 modulo 256. -/
theorem runClaims_replicate (n : Nat) (self : Adc) (s : Slot) :
    ∀ st : AdcStatics, st.slot s < 256 →
      ∃ st1, runClaims (List.replicate n s.call) self st
          = some ((List.range n).map (fun k => (st.slot s + k) % 256), self, st1)
        ∧ st1.slot s = (st.slot s + n) % 256 := by
  induction n with
  | zero =>
    intro st h
    exact ⟨st, by simp [runClaims], by simp [Nat.mod_eq_of_lt h]⟩
  | succ n ih =>
    intro st h
    obtain ⟨st1, hc, hs, _⟩ := claimRank_call self st s
    obtain ⟨st2, hr, hs2⟩ := ih st1 (by rw [hs]; exact Nat.mod_lt _ (by decide))
    refine ⟨st2, ?_, ?_⟩
    · rw [List.replicate_succ, runClaims_cons _ _ _ _ _ _ _ _ hc hr, List.range_succ_eq_map]
      simp only [List.map_cons, List.map_map, Nat.add_zero, Nat.mod_eq_of_lt h]
      congr 3
      apply List.map_congr_left
      intro k _
      simp only [Function.comp, hs, Nat.succ_eq_add_one]
      omega
    · rw [hs2, hs]
      omega

/-- Claims that never take a slot past 255: every call succeeds, each slot grows by the number
of claims made on it, and the ranks handed out for a slot count up from its starting value. -/
theorem runClaims_noWrap (ops : List Slot) (self : Adc) :
    ∀ st : AdcStatics, (∀ s : Slot, st.slot s + ops.count s ≤ 255) →
      ∃ rs st1, runClaims (ops.map Slot.call) self st = some (rs, self, st1)
        ∧ (∀ s : Slot, st1.slot s = st.slot s + ops.count s)
        ∧ (∀ s : Slot, ranksOf s ops rs = List.range' (st.slot s) (ops.count s)) := by
  induction ops with
  | nil =>
    intro st _
    exact ⟨[], st, by simp [runClaims], by simp, by simp [ranksOf]⟩
  | cons c cs ih =>
    intro st hb
    obtain ⟨st1, hc, hs, hframe⟩ := claimRank_call self st c
    have hc255 : st.slot c < 255 := by
      have := hb c
      simp only [List.count_cons_self] at this
      omega
    have hs1 : st1.slot c = st.slot c + 1 := by
      rw [hs]; exact Nat.mod_eq_of_lt (by omega)
    have hb1 : ∀ s : Slot, st1.slot s + cs.count s ≤ 255 := by
      intro s
      have := hb s
      by_cases hsc : s = c
      · subst hsc
        simp only [List.count_cons_self] at this
        omega
      · rw [hframe s hsc]
        rw [List.count_cons_of_ne hsc] at this
        exact this
    obtain ⟨rs, st2, hr, hslots, hranks⟩ := ih st1 hb1
    refine ⟨st.slot c :: rs, st2, ?_, ?_, ?_⟩
    · rw [List.map_cons]
      exact runClaims_cons _ _ _ _ _ _ _ _ hc hr
    · intro s
      by_cases hsc : s = c
      · subst hsc
        rw [hslots, hs1, List.count_cons_self]
        omega
      · rw [hslots, hframe s hsc, List.count_cons_of_ne hsc]
    · intro s
      by_cases hsc : s = c
      · subst hsc
        have := hranks s
        simp only [ranksOf] at this ⊢
        simp only [List.zip_cons_cons, List.filter_cons, decide_True, if_true, List.map_cons,
          List.count_cons_self, List.range'_succ, this, hs1]
      · have := hranks s
        simp only [ranksOf] at this ⊢
        have hne : ¬ c = s := fun h => hsc h.symm
        simp only [List.zip_cons_cons, List.filter_cons, hne, decide_False, if_false,
          Bool.false_eq_true, this, hframe s hsc, List.count_cons_of_ne hsc]

theorem ctor_slot (addr : Nat) (master : Option Nat) (si : ADC_InitTypeDef) (t : Nat)
    (st : AdcStatics) (s : Slot) : (Adc.ctor addr master si t st).2.slot s = 1 := by
  obtain ⟨g, i⟩ := s
  cases g
  · exact ctor_regular addr master si t st i
  · exact ctor_injected addr master si t st i

theorem nthRegularRank_after_reset (i : Fin 3) (n : Nat) (hn : 1 ≤ n) (st : AdcStatics)
    (addr : Nat) (master : Option Nat) (si : ADC_InitTypeDef) (t : Nat) :
    nthRegularRank (i.val + 1) n (Adc.ctor addr master si t st).1 (Adc.ctor addr master si t st).2
      = some (n % 256) := by
  have hfresh := ctor_slot addr master si t st (ChannelGroup.regular, i)
  obtain ⟨st1, hrun, _⟩ := runClaims_replicate n (Adc.ctor addr master si t st).1
    (ChannelGroup.regular, i) (Adc.ctor addr master si t st).2 (by rw [hfresh]; decide)
  have hcall : Slot.call (ChannelGroup.regular, i) = (ChannelGroup.regular, i.val + 1) := rfl
  rw [hcall] at hrun
  simp only [nthRegularRank, hrun, hfresh, List.getElem?_map]
  rw [List.getElem?_range (by omega)]
  simp only [Option.map_some']
  congr 2
  omega

/-! ## C2 : the Nth claim after a reset -/

/-- C2 (as amended): for every ADC number 1..3 (written `i + 1`) and every N >= 1, starting from
the rank state left by constructing an Adc, the Nth consecutive call of
getAndIncrementRegularChannelRank for that ADC number returns N modulo 256 (the return type is a
uint8_t); in particular it returns N for every N from 1 to 255, and the first call returns 1. -/
theorem nth_regular_claim_returns_n_mod_256 (i : Fin 3) (n : Nat) (hn : 1 ≤ n) (st : AdcStatics)
    (addr : Nat) (master : Option Nat) (si : ADC_InitTypeDef) (t : Nat) :
    nthRegularRank (i.val + 1) n (Adc.ctor addr master si t st).1 (Adc.ctor addr master si t st).2
        = some (n % 256)
    ∧ (n ≤ 255 →
        nthRegularRank (i.val + 1) n (Adc.ctor addr master si t st).1
          (Adc.ctor addr master si t st).2 = some n)
    ∧ nthRegularRank (i.val + 1) 1 (Adc.ctor addr master si t st).1
          (Adc.ctor addr master si t st).2 = some 1 := by
  refine ⟨nthRegularRank_after_reset i n hn st addr master si t, ?_, ?_⟩
  · intro h
    rw [nthRegularRank_after_reset i n hn st addr master si t, Nat.mod_eq_of_lt (by omega)]
  · exact nthRegularRank_after_reset i 1 (le_refl 1) st addr master si t

/-- C2 at a concrete input: the third consecutive regular claim for ADC1 returns 3. -/
theorem nth_regular_claim_returns_n_mod_256_witness :
    1 ≤ 3 ∧ nthRegularRank 1 3 exampleAdc
      (Adc.ctor 1073816576 none exampleStructInit 917504 exampleStatics).2 = some (3 % 256) :=
  ⟨by decide,
    (nth_regular_claim_returns_n_mod_256 0 3 (by decide) exampleStatics 1073816576 none
      exampleStructInit 917504).1⟩

/-- C2 fails as stated: after a construction, the 256th consecutive regular claim for ADC1
returns 0, not 256. -/
theorem regular_claim_256_returns_0 :
    nthRegularRank 1 256 exampleAdc
        (Adc.ctor 1073816576 none exampleStructInit 917504 exampleStatics).2 = some 0
    ∧ nthRegularRank 1 256 exampleAdc
        (Adc.ctor 1073816576 none exampleStructInit 917504 exampleStatics).2 ≠ some 256 := by
  have h := nthRegularRank_after_reset 0 256 (by decide) exampleStatics 1073816576 none
    exampleStructInit 917504
  have h0 : nthRegularRank 1 256 exampleAdc
      (Adc.ctor 1073816576 none exampleStructInit 917504 exampleStatics).2 = some 0 := h
  exact ⟨h0, by rw [h0]; decide⟩

/-! ## C10 : ranks within one configuration session -/

/-- C10 (as amended): start from the rank state left by a construction and run any finite
sequence of regular and injected rank claims with ADC numbers in 1..3, with no construction in
between, in which no slot is claimed more than 254 times. Then every call succeeds; in the state
after every number k of calls every slot is at least 1, and no slot is smaller after call k + 1
than it was after call k; and the ranks returned for a given ADC number and channel group are
strictly increasing in call order, so no rank is handed out twice. -/
theorem ranks_increase_within_session (ops : List Slot) (hbound : ∀ s : Slot, ops.count s ≤ 254)
    (st : AdcStatics) (addr : Nat) (master : Option Nat) (si : ADC_InitTypeDef) (t : Nat) :
    ∃ rs self1 st1,
      runClaims (ops.map Slot.call) (Adc.ctor addr master si t st).1 (Adc.ctor addr master si t st).2
          = some (rs, self1, st1)
      ∧ (∀ k : Nat, ∃ stk stk1,
          slotsAfter (ops.take k) (Adc.ctor addr master si t st).1 (Adc.ctor addr master si t st).2
              = some stk
          ∧ slotsAfter (ops.take (k + 1)) (Adc.ctor addr master si t st).1
              (Adc.ctor addr master si t st).2 = some stk1
          ∧ ∀ s : Slot, 1 ≤ stk.slot s ∧ stk.slot s ≤ stk1.slot s)
      ∧ (∀ s : Slot, (ranksOf s ops rs).Pairwise (fun a b => a < b))
      ∧ (∀ s : Slot, (ranksOf s ops rs).Nodup) := by
  have hfresh := ctor_slot addr master si t st
  have hsub : ∀ k : Nat, ∀ s : Slot,
      (Adc.ctor addr master si t st).2.slot s + (ops.take k).count s ≤ 255 := by
    intro k s
    have h1 := (List.take_sublist k ops).count_le s
    have h2 := hbound s
    rw [hfresh]
    omega
  have hall : ∀ s : Slot, (Adc.ctor addr master si t st).2.slot s + ops.count s ≤ 255 := by
    intro s
    have h2 := hbound s
    rw [hfresh]
    omega
  obtain ⟨rs, st1, hrun, _, hranks⟩ :=
    runClaims_noWrap ops (Adc.ctor addr master si t st).1 (Adc.ctor addr master si t st).2 hall
  refine ⟨rs, _, st1, hrun, ?_, ?_, ?_⟩
  · intro k
    obtain ⟨rsk, stk, hk, hslk, _⟩ := runClaims_noWrap (ops.take k)
      (Adc.ctor addr master si t st).1 (Adc.ctor addr master si t st).2 (hsub k)
    obtain ⟨rsk1, stk1, hk1, hslk1, _⟩ := runClaims_noWrap (ops.take (k + 1))
      (Adc.ctor addr master si t st).1 (Adc.ctor addr master si t st).2 (hsub (k + 1))
    refine ⟨stk, stk1, by rw [slotsAfter, hk]; rfl, by rw [slotsAfter, hk1]; rfl, ?_⟩
    intro s
    have hmono : (ops.take k).count s ≤ (ops.take (k + 1)).count s := by
      have hle : List.take k ops = List.take k (List.take (k + 1) ops) := by
        rw [List.take_take, Nat.min_eq_left (Nat.le_succ k)]
      rw [hle]
      exact (List.take_sublist k _).count_le s
    rw [hslk s, hslk1 s, hfresh s]
    omega
  · intro s
    rw [hranks s]
    exact List.pairwise_lt_range' _ _
  · intro s
    rw [hranks s]
    exact List.nodup_range' _ _

/-- C10 at a concrete input: a regular claim for ADC1, an injected claim for ADC2 and another
regular claim for ADC1. -/
theorem ranks_increase_within_session_witness :
    (∀ s : Slot, List.count s
        [(ChannelGroup.regular, (0 : Fin 3)), (ChannelGroup.injected, 1), (ChannelGroup.regular, 0)]
        ≤ 254)
    ∧ ∃ rs self1 st1,
      runClaims
          (List.map Slot.call
            [(ChannelGroup.regular, (0 : Fin 3)), (ChannelGroup.injected, 1),
              (ChannelGroup.regular, 0)])
          (Adc.ctor 1073816576 none exampleStructInit 917504 exampleStatics).1
          (Adc.ctor 1073816576 none exampleStructInit 917504 exampleStatics).2
        = some (rs, self1, st1) :=
  ⟨fun s => le_trans (List.count_le_length s _) (by decide),
    (ranks_increase_within_session
      [(ChannelGroup.regular, (0 : Fin 3)), (ChannelGroup.injected, 1), (ChannelGroup.regular, 0)]
      (fun s => le_trans (List.count_le_length s _) (by decide)) exampleStatics 1073816576 none exampleStructInit 917504).imp
      (fun _ h => h.imp (fun _ h1 => h1.imp (fun _ h2 => h2.1)))⟩

/-- C10 fails as stated: after a construction, 255 consecutive regular claims for ADC1 leave
the regular rank slot of ADC1 at 0, below 1; the last of these calls took it down from 255. -/
theorem slot_reaches_zero_after_255_claims :
    (slotsAfter (List.replicate 254 (ChannelGroup.regular, (0 : Fin 3))) exampleAdc
        (Adc.ctor 1073816576 none exampleStructInit 917504 exampleStatics).2).map
        (fun s => s.slot (ChannelGroup.regular, 0)) = some 255
    ∧ (slotsAfter (List.replicate 255 (ChannelGroup.regular, (0 : Fin 3))) exampleAdc
        (Adc.ctor 1073816576 none exampleStructInit 917504 exampleStatics).2).map
        (fun s => s.slot (ChannelGroup.regular, 0)) = some 0 := by
  have hfresh := ctor_slot 1073816576 none exampleStructInit 917504 exampleStatics
    (ChannelGroup.regular, 0)
  obtain ⟨sa, ha, hsa⟩ := runClaims_replicate 254 exampleAdc (ChannelGroup.regular, 0)
    (Adc.ctor 1073816576 none exampleStructInit 917504 exampleStatics).2 (by rw [hfresh]; decide)
  obtain ⟨sb, hb, hsb⟩ := runClaims_replicate 255 exampleAdc (ChannelGroup.regular, 0)
    (Adc.ctor 1073816576 none exampleStructInit 917504 exampleStatics).2 (by rw [hfresh]; decide)
  rw [hfresh] at hsa hsb
  constructor
  · simp only [slotsAfter, List.map_replicate, ha, Option.map_some', hsa]
  · simp only [slotsAfter, List.map_replicate, hb, Option.map_some', hsb]

/-! ## The busy-wait loop -/

theorem whileSet_of_clearsAfter {P : Type} (poll : P → FlagStatus × P) (c : FlagStatus → LibCall)
    (k : Nat) : ∀ (fuel : Nat) (w : World P), clearsAfter poll k w.periph = true → k < fuel →
      whileSet (fun v => v.read poll c) fuel w
        = some { periph := afterPolls poll (k + 1) w.periph
                 calls := w.calls ++ List.replicate k (c FlagStatus.SET) ++ [c FlagStatus.RESET] } := by
  induction k with
  | zero =>
    intro fuel w h hf
    obtain ⟨f, rfl⟩ : ∃ f, fuel = f + 1 := ⟨fuel - 1, by omega⟩
    simp only [clearsAfter, decide_eq_true_eq] at h
    simp [whileSet, World.read, h, afterPolls]
  | succ k ih =>
    intro fuel w h hf
    obtain ⟨f, rfl⟩ : ∃ f, fuel = f + 1 := ⟨fuel - 1, by omega⟩
    simp only [clearsAfter, Bool.and_eq_true, decide_eq_true_eq] at h
    have hrec := ih f
      { periph := (poll w.periph).2, calls := w.calls ++ [c (poll w.periph).1] } h.2 (by omega)
    simp only [whileSet, World.read, h.1] at hrec ⊢
    rw [hrec]
    simp [afterPolls, List.replicate_succ]

theorem calibrationLog_split (a k1 k2 : Nat) :
    calibrationLog a k1 k2
      = ([LibCall.ADC_Cmd a FunctionalState.ENABLE, LibCall.ADC_ResetCalibration a]
          ++ List.replicate k1 (LibCall.ADC_GetResetCalibrationStatus a FlagStatus.SET))
        ++ ([LibCall.ADC_GetResetCalibrationStatus a FlagStatus.RESET,
              LibCall.ADC_StartCalibration a]
          ++ (List.replicate k2 (LibCall.ADC_GetCalibrationStatus a FlagStatus.SET)
          ++ [LibCall.ADC_GetCalibrationStatus a FlagStatus.RESET])) := by
  simp [calibrationLog]

theorem calibrationLog_head_length (a k1 : Nat) :
    ([LibCall.ADC_Cmd a FunctionalState.ENABLE, LibCall.ADC_ResetCalibration a]
      ++ List.replicate k1 (LibCall.ADC_GetResetCalibrationStatus a FlagStatus.SET)).length
      = k1 + 2 := by
  simp

/-! ## C6 : the calibration sequence of enablePeripheral -/

/-- C6: take any peripheral library and hardware state, and a never-calibrated Adc. If, once
the enable and reset-calibration commands are issued, the reset-calibration status clears after
k1 polls, and, once start-calibration is then issued, the calibration status clears after k2
polls, then enablePeripheral returns (for every poll bound above k1 and k2) and the calls it
makes are, in this order: one enable command, one reset-calibration command, the
reset-calibration status polls up to and including the one that reports complete, one
start-calibration command, the calibration status polls up to and including the one that
reports complete. Each of the three commands occurs exactly once, and start-calibration comes
directly after the reset-calibration status poll that read RESET. -/
theorem enablePeripheral_calibration_sequence {P : Type} (lib : AdcLibrary P) (self : Adc)
    (w : World P) (k1 k2 fuel : Nat) (hcal : self._calibrated = false)
    (h1 : clearsAfter (lib.ADC_GetResetCalibrationStatus self._peripheralAddress) k1
        (resetIssued lib self._peripheralAddress w.periph) = true)
    (h2 : clearsAfter (lib.ADC_GetCalibrationStatus self._peripheralAddress) k2
        (startIssued lib self._peripheralAddress k1 w.periph) = true)
    (hf1 : k1 < fuel) (hf2 : k2 < fuel) :
    self.enablePeripheral lib fuel w
        = some { periph := afterPolls (lib.ADC_GetCalibrationStatus self._peripheralAddress)
                   (k2 + 1) (startIssued lib self._peripheralAddress k1 w.periph)
                 calls := w.calls ++ calibrationLog self._peripheralAddress k1 k2 }
    ∧ (calibrationLog self._peripheralAddress k1 k2).count
        (LibCall.ADC_Cmd self._peripheralAddress FunctionalState.ENABLE) = 1
    ∧ (calibrationLog self._peripheralAddress k1 k2).count
        (LibCall.ADC_ResetCalibration self._peripheralAddress) = 1
    ∧ (calibrationLog self._peripheralAddress k1 k2).count
        (LibCall.ADC_StartCalibration self._peripheralAddress) = 1
    ∧ (calibrationLog self._peripheralAddress k1 k2)[k1 + 2]?
        = some (LibCall.ADC_GetResetCalibrationStatus self._peripheralAddress FlagStatus.RESET)
    ∧ (calibrationLog self._peripheralAddress k1 k2)[k1 + 3]?
        = some (LibCall.ADC_StartCalibration self._peripheralAddress) := by
  refine ⟨?_, ?_, ?_, ?_, ?_, ?_⟩
  · have e1 := whileSet_of_clearsAfter
      (lib.ADC_GetResetCalibrationStatus self._peripheralAddress)
      (LibCall.ADC_GetResetCalibrationStatus self._peripheralAddress) k1 fuel
      { periph := resetIssued lib self._peripheralAddress w.periph
        calls := w.calls ++ [LibCall.ADC_Cmd self._peripheralAddress FunctionalState.ENABLE]
          ++ [LibCall.ADC_ResetCalibration self._peripheralAddress] } h1 hf1
    have e2 := whileSet_of_clearsAfter
      (lib.ADC_GetCalibrationStatus self._peripheralAddress)
      (LibCall.ADC_GetCalibrationStatus self._peripheralAddress) k2 fuel
      { periph := startIssued lib self._peripheralAddress k1 w.periph
        calls := w.calls ++ [LibCall.ADC_Cmd self._peripheralAddress FunctionalState.ENABLE]
          ++ [LibCall.ADC_ResetCalibration self._peripheralAddress]
          ++ List.replicate k1
              (LibCall.ADC_GetResetCalibrationStatus self._peripheralAddress FlagStatus.SET)
          ++ [LibCall.ADC_GetResetCalibrationStatus self._peripheralAddress FlagStatus.RESET]
          ++ [LibCall.ADC_StartCalibration self._peripheralAddress] } h2 hf2
    simp only [Adc.enablePeripheral, hcal, Bool.not_false, if_true, Adc.calibrate, World.command]
    simp only [resetIssued] at e1
    rw [e1]
    simp only [startIssued, resetIssued] at e2 ⊢
    rw [e2]
    simp [calibrationLog, startIssued, resetIssued]
  · simp [calibrationLog, List.count_append, List.count_cons, List.count_replicate]
  · simp [calibrationLog, List.count_append, List.count_cons, List.count_replicate]
  · simp [calibrationLog, List.count_append, List.count_cons, List.count_replicate]
  · rw [calibrationLog_split, List.getElem?_append_right (by rw [calibrationLog_head_length]),
      calibrationLog_head_length]
    simp
  · rw [calibrationLog_split, List.getElem?_append_right (by rw [calibrationLog_head_length]; omega),
      calibrationLog_head_length]
    have h : k1 + 3 - (k1 + 2) = 1 := by omega
    rw [h]
    simp

/-- C6 at a concrete input: the example instance on a mock whose reset-calibration status
clears after 2 polls and whose calibration status clears after 3 polls. -/
theorem enablePeripheral_calibration_sequence_witness :
    exampleAdc._calibrated = false
    ∧ clearsAfter (mockLibrary.ADC_GetResetCalibrationStatus exampleAdc._peripheralAddress) 2
        (resetIssued mockLibrary exampleAdc._peripheralAddress (mockBank 2 3)) = true
    ∧ clearsAfter (mockLibrary.ADC_GetCalibrationStatus exampleAdc._peripheralAddress) 3
        (startIssued mockLibrary exampleAdc._peripheralAddress 2 (mockBank 2 3)) = true
    ∧ exampleAdc.enablePeripheral mockLibrary 4 { periph := mockBank 2 3, calls := [] }
        = some { periph := afterPolls
                   (mockLibrary.ADC_GetCalibrationStatus exampleAdc._peripheralAddress) (3 + 1)
                   (startIssued mockLibrary exampleAdc._peripheralAddress 2 (mockBank 2 3))
                 calls := [] ++ calibrationLog exampleAdc._peripheralAddress 2 3 } :=
  ⟨rfl, by decide, by decide,
    (enablePeripheral_calibration_sequence mockLibrary exampleAdc
      { periph := mockBank 2 3, calls := [] } 2 3 4 rfl (by decide) (by decide) (by decide)
      (by decide)).1⟩

/-! ## C5 : calibration on a second enable -/

/-- C5 (what the code does): on a mock that reports both calibration steps complete at the
first poll, a freshly constructed Adc has its calibrated flag false; one enablePeripheral issues
one reset-calibration and one start-calibration command; enablePeripheral is a const member, so
the flag of the instance is still false, and a second enablePeripheral on the same instance
issues both commands again: the two counters stand at 2, not 1. -/
theorem enablePeripheral_second_call_recalibrates :
    exampleAdc._calibrated = false
    ∧ (exampleAdc.enablePeripheral mockLibrary 1 { periph := mockBank 0 0, calls := [] }).map
        (fun w => calibrationCounters exampleAdc._peripheralAddress w.calls) = some (1, 1)
    ∧ (enableTwice mockLibrary 1 exampleAdc { periph := mockBank 0 0, calls := [] }).map
        (fun w => calibrationCounters exampleAdc._peripheralAddress w.calls) = some (2, 2)
    ∧ (enableTwice mockLibrary 1 exampleAdc { periph := mockBank 0 0, calls := [] }).map
        (fun w => w.calls)
        = some (calibrationLog exampleAdc._peripheralAddress 0 0
            ++ calibrationLog exampleAdc._peripheralAddress 0 0) := by
  decide

/-! ## C7 : hasRegularConversionStarted -/

/-- C7: over any peripheral library, hasRegularConversionStarted is true exactly when the
software-start status reads RESET. Over the mock peripheral, it is true exactly when the
software-start bit is clear and the call leaves the peripheral state as it was;
startRegularConversion sets the bit, so directly after it hasRegularConversionStarted returns
false, and once the hardware has cleared the bit it returns true. -/
theorem hasRegularConversionStarted_iff_start_bit_clear {P : Type} (lib : AdcLibrary P)
    (selfP : Adc) (wP : World P) (self : Adc) (w : World (Nat → MockAdc)) :
    ((selfP.hasRegularConversionStarted lib wP).1 = true
        ↔ (lib.ADC_GetSoftwareStartConvStatus selfP._peripheralAddress wP.periph).1
            = FlagStatus.RESET)
    ∧ ((self.hasRegularConversionStarted mockLibrary w).1 = true
        ↔ (w.periph self._peripheralAddress).swstart = false)
    ∧ (self.hasRegularConversionStarted mockLibrary w).2.periph = w.periph
    ∧ ((self.startRegularConversion mockLibrary w).periph self._peripheralAddress).swstart = true
    ∧ (self.hasRegularConversionStarted mockLibrary
          (self.startRegularConversion mockLibrary w)).1 = false
    ∧ (self.hasRegularConversionStarted mockLibrary
          { periph := mockClearSwstart self._peripheralAddress
              (self.startRegularConversion mockLibrary w).periph
            calls := (self.startRegularConversion mockLibrary w).calls }).1 = true := by
  refine ⟨?_, ?_, ?_, ?_, ?_, ?_⟩
  · simp [Adc.hasRegularConversionStarted, World.read]
  · cases h : (w.periph self._peripheralAddress).swstart <;>
      simp [Adc.hasRegularConversionStarted, World.read, mockLibrary, bitStatus, h]
  · simp [Adc.hasRegularConversionStarted, World.read, mockLibrary]
  · simp [Adc.startRegularConversion, World.command, mockLibrary]
  · simp [Adc.hasRegularConversionStarted, Adc.startRegularConversion, World.read, World.command,
      mockLibrary, bitStatus]
  · simp [Adc.hasRegularConversionStarted, Adc.startRegularConversion, World.read, World.command,
      mockLibrary, bitStatus, mockClearSwstart]

/-! ## C8 : hasRegularConversionFinished -/

/-- C8: over any peripheral library, hasRegularConversionFinished is true exactly when the
status of the EOC flag reads SET. Over the mock peripheral, for every peripheral state, it is
true exactly when the EOC flag is set, and the call leaves the peripheral state (the EOC flag
included) as it was; it is a const member, so the instance is unchanged as well. Hence it is
false while the flag is clear, true once the hardware has set the flag, and true again on the
next call. -/
theorem hasRegularConversionFinished_iff_eoc_set {P : Type} (lib : AdcLibrary P)
    (selfP : Adc) (wP : World P) (self : Adc) (w : World (Nat → MockAdc)) :
    ((selfP.hasRegularConversionFinished lib wP).1 = true
        ↔ (lib.ADC_GetFlagStatus selfP._peripheralAddress lib.ADC_FLAG_EOC wP.periph).1
            = FlagStatus.SET)
    ∧ ((self.hasRegularConversionFinished mockLibrary w).1 = true
        ↔ (w.periph self._peripheralAddress).eoc = true)
    ∧ (self.hasRegularConversionFinished mockLibrary w).2.periph = w.periph
    ∧ (self.hasRegularConversionFinished mockLibrary
          { periph := mockSetEoc self._peripheralAddress w.periph, calls := w.calls }).1 = true
    ∧ (self.hasRegularConversionFinished mockLibrary
          (self.hasRegularConversionFinished mockLibrary
            { periph := mockSetEoc self._peripheralAddress w.periph, calls := w.calls }).2).1
        = true := by
  refine ⟨?_, ?_, ?_, ?_, ?_⟩
  · simp [Adc.hasRegularConversionFinished, World.read]
  · cases h : (w.periph self._peripheralAddress).eoc <;>
      simp [Adc.hasRegularConversionFinished, World.read, mockLibrary, bitStatus, h]
  · simp [Adc.hasRegularConversionFinished, World.read, mockLibrary]
  · simp [Adc.hasRegularConversionFinished, World.read, mockLibrary, bitStatus, mockSetEoc]
  · simp [Adc.hasRegularConversionFinished, World.read, mockLibrary, bitStatus, mockSetEoc]

end stm32plus
